import Mathlib

/-!
Verification of the BrainWorkshop trial engine against its specification.

The definitions below are a shallow embedding of the Python modules
`brainworkshop/domain/stimulus_generator.py`, `brainworkshop/domain/match_checker.py`
and `brainworkshop/domain/game_session.py`.

Modelling conventions:
* `random.randint(1, 8)` is modelled by drawing the next value from an explicit
  stream `r : Nat -> Nat` and mapping it into 1..8 with `r i % 8 + 1`; the index
  of the next unread stream element is threaded explicitly.
* The unbounded `while True` loops of `compute_jaeggi_sequence` are modelled
  with an explicit fuel argument; `none` means the loop has not terminated
  within the given number of iterations (for any fuel).
* `random.shuffle(xs)` is modelled by quantifying over an arbitrary
  permutation of `xs`, supplied as an argument.
* Python floats are modelled by rational numbers; a float literal of the
  source is translated to the exact rational value of the IEEE-754 double it
  denotes (for example the literal 0.01 denotes 5764607523034235 / 2^59).
  All floating-point operations exercised by the claims (subtraction of
  nearby doubles, 10.0 / 4.0, comparisons) are exact on the values involved.
* Python list indexing that the source guards to be in range is modelled with
  `List.getD`; an indexing operation that the source does not guard (and that
  can raise IndexError) is modelled with `List.get?`, so a fault appears as
  `none`.
-/

/-! ## stimulus_generator.py: compute_jaeggi_sequence -/

/-- One draw of `random.randint(1, 8)`, reading element `i` of the stream. -/
def randInt18 (r : Nat → Nat) (i : Nat) : Nat := r i % 8 + 1

/-- `count` consecutive draws of `random.randint(1, 8)` starting at stream index `i`. -/
def genVals (r : Nat → Nat) (i count : Nat) : List Nat :=
  (List.range count).map fun k => randInt18 r (i + k)

/-- The post-warm-up indices `range(n_back, num_trials)` of the generation loops. -/
def postWarm (n num : Nat) : List Nat := (List.range (num - n)).map (· + n)

/-- Number of post-warm-up entries of `s` that equal the entry `n` positions
earlier: the `position` / `audio` counter of `compute_jaeggi_sequence`. -/
def countMatches (s : List Nat) (n num : Nat) : Nat :=
  (postWarm n num).countP fun x => decide (s.getD x 0 = s.getD (x - n) 0)

/-- The `both` counter of `compute_jaeggi_sequence`: post-warm-up indices that
are simultaneously a match in both sequences. -/
def countBothMatches (s t : List Nat) (n num : Nat) : Nat :=
  (postWarm n num).countP fun x =>
    decide (s.getD x 0 = s.getD (x - n) 0) && decide (t.getD x 0 = t.getD (x - n) 0)

/-- Regenerate the post-warm-up tail of a sequence (`for x in range(n_back,
num_trials): seq[x] = random.randint(1, 8)`), keeping the warm-up entries
`pre`.  Returns the new sequence and the next unread stream index. -/
def regenTail (r : Nat → Nat) (i : Nat) (pre : List Nat) (n num : Nat) : List Nat × Nat :=
  (pre ++ genVals r i (num - n), i + (num - n))

/-- The inner `while True` loop of `compute_jaeggi_sequence`: regenerate the
audio tail until exactly 6 post-warm-up entries match, with explicit fuel. -/
def audioLoop (r : Nat → Nat) (pre1 : List Nat) (n num : Nat) :
    Nat → Nat → Option (List Nat × Nat)
  | _, 0 => none
  | i, fuel + 1 =>
    let p := regenTail r i pre1 n num
    if countMatches p.1 n num = 6 then some p
    else audioLoop r pre1 n num p.2 fuel

/-- The outer `while True` loop of `compute_jaeggi_sequence`: regenerate the
position tail until it has exactly 6 matches, run the audio loop, and accept
when the simultaneous match count is exactly 2. -/
def jaeggiLoop (r : Nat → Nat) (pre0 pre1 : List Nat) (n num fI : Nat) :
    Nat → Nat → Option (List Nat × List Nat)
  | _, 0 => none
  | i, fuel + 1 =>
    let p := regenTail r i pre0 n num
    if countMatches p.1 n num = 6 then
      match audioLoop r pre1 n num p.2 fI with
      | none => none
      | some q =>
        if countBothMatches p.1 q.1 n num = 2 then some (p.1, q.1)
        else jaeggiLoop r pre0 pre1 n num fI q.2 fuel
    else jaeggiLoop r pre0 pre1 n num fI p.2 fuel

/-- `compute_jaeggi_sequence(n_back, num_trials)`.  The warm-up entries of the
two sequences are drawn interleaved (`bt_sequence[0][x]` then
`bt_sequence[1][x]` for each `x in range(n_back)`), exactly as in the source;
the generate-and-test loops then run with the given fuel bounds. -/
def computeJaeggiSequence (r : Nat → Nat) (n num fO fI : Nat) :
    Option (List Nat × List Nat) :=
  jaeggiLoop r ((List.range n).map fun x => randInt18 r (2 * x))
    ((List.range n).map fun x => randInt18 r (2 * x + 1)) n num fI (2 * n) fO

/-! ## stimulus_generator.py: interference branch of apply_nback_matching -/

/-- The candidate list `interference = [-1, 1, n_back]`, with the first
element dropped when `back < 3` (`interference = interference[1:]`). -/
def interferenceCandidates (n : Int) : List Int :=
  if n < 3 then [1, n] else [-1, 1, n]

/-- Index of the true n-back trial in the history list:
`trial_number - n_back - 1`. -/
def trueNbackIdx (trial n : Nat) : Nat := trial - n - 1

/-- Index probed for interference candidate `i`:
`trial_number - (n_back + i) - 1`, as a (possibly negative) integer. -/
def candidateIdx (trial n : Nat) (i : Int) : Int :=
  (trial : Int) - ((n : Int) + i) - 1

/-- The acceptance test of the interference loop: the candidate index is
nonnegative and the historical value there differs from the true n-back
value. -/
def candidateOk (hist : List Int) (trial n : Nat) (i : Int) : Bool :=
  decide (0 ≤ candidateIdx trial n i) &&
    decide (hist.getD (candidateIdx trial n i).toNat 0 ≠ hist.getD (trueNbackIdx trial n) 0)

/-- The interference loop `for i in interference: ...` run on an already
shuffled candidate list: the first accepted candidate determines
`back = n_back + i`; if no candidate is accepted, `back` is reset to `None`. -/
def pickInterference (hist : List Int) (trial n : Nat) (shuffled : List Int) : Option Int :=
  (shuffled.find? (candidateOk hist trial n)).map fun i => (n : Int) + i

/-- Effect of the interference branch on one channel's current value: when a
candidate offset `back` was accepted, the value becomes
`session_history[back_data][trial_number - back - 1]`; otherwise the value is
left unmodified. -/
def applyInterference (cur : Int) (hist : List Int) (trial n : Nat)
    (shuffled : List Int) : Int :=
  match pickInterference hist trial n shuffled with
  | some b => hist.getD ((trial : Int) - b - 1).toNat 0
  | none => cur

/-! ## match_checker.py -/

/-- Exact rational value of the IEEE-754 double denoted by the source
literal 0.01 (the division tolerance of check_arithmetic_match). -/
def qTol : ℚ := 5764607523034235 / 576460752303423488

/-- Exact rational value of the IEEE-754 double denoted by the literal 2.51. -/
def q251 : ℚ := 1413004383087493 / 562949953421312

/-- Exact rational value of the IEEE-754 double denoted by the literal 2.6. -/
def q26 : ℚ := 5854679515581645 / 2251799813685248

/-- The session-history dictionary built by Stats.initialize_session /
Stats.save_input: stimulus-value lists (keys such as position1, vis, image,
color, audio, numbers), boolean input lists (keys ending in _input),
reaction-time lists (keys ending in _rt), the per-trial operation strings and
the numeric arithmetic answers. -/
structure SessHist where
  vals : String → List ℚ
  bins : String → List Bool
  rts : String → List ℚ
  operation : List String
  arithmeticInput : List ℚ

/-- Fresh session history: every list empty (Stats.initialize_session). -/
def emptySessHist : SessHist :=
  { vals := fun _ => [], bins := fun _ => [], rts := fun _ => [],
    operation := [], arithmeticInput := [] }

/-- check_position_match (check_audio_match, check_color_match and
check_image_match are textually identical up to the history key).  Both list
accesses are guarded by the source (`trial_number <= n_back`,
`current_idx >= len(...)`; the n-back index is below the current index), so
the function is total; the (dead for natural inputs) `nback_idx < 0` guard of
the source is vacuous here because the subtraction is truncated. -/
def checkPositionMatch (h : SessHist) (trial n : Nat) (key : String) : Bool :=
  if trial ≤ n then false
  else if (h.vals key).length ≤ trial - 1 then false
  else decide ((h.vals key).getD (trial - 1) 0 = (h.vals key).getD (trial - n - 1) 0)

/-- check_combination_match.  The source guards `trial_number <= n_back` and
`nback_idx < 0` but, unlike the sibling checkers, does NOT guard the list
accesses against the history length; an out-of-range Python indexing raises
IndexError, modelled here by `none`. -/
def checkCombinationMatch (h : SessHist) (trial n : Nat) (ctype : String) :
    Option Bool :=
  if trial ≤ n then some false
  else
    let ci := trial - 1
    let ni := trial - n - 1
    if ctype = "visvis" then do
      let a ← (h.vals "vis").get? ci
      let b ← (h.vals "vis").get? ni
      some (decide (a = b))
    else if ctype = "visaudio" then do
      let a ← (h.vals "vis").get? ci
      let b ← (h.vals "audio").get? ni
      some (decide (a = b))
    else if ctype = "audiovis" then do
      let a ← (h.vals "audio").get? ci
      let b ← (h.vals "vis").get? ni
      some (decide (a = b))
    else some false

/-- check_arithmetic_match over the `numbers` and `operation` lists of the
session history.  The two `numbers` accesses are guarded by the source; the
`operation[current_idx]` access is not (an out-of-range access is `none`).
Expected results and the division tolerance are exact rationals; on the
operand values exercised by the claims the Python float operations are
exact. -/
def checkArithmeticMatch (numbers : List ℚ) (operation : List String)
    (trial n : Nat) (answer : ℚ) : Option Bool :=
  if trial ≤ n then some false
  else
    let ni := trial - n - 1
    let ci := trial - 1
    if numbers.length ≤ ni then some false
    else if numbers.length ≤ ci then some false
    else
      let nb := numbers.getD ni 0
      let c := numbers.getD ci 0
      match operation.get? ci with
      | none => none
      | some op =>
        if op = "add" then some (decide (answer = nb + c))
        else if op = "subtract" then some (decide (answer = nb - c))
        else if op = "multiply" then some (decide (answer = nb * c))
        else if op = "divide" then
          if c = 0 then some false
          else some (decide (|answer - nb / c| < qTol))
        else some false

/-- The per-trial (is_match, player_input) pair of calculate_modality_score.
Unmatched modality names fall through with both components False, exactly as
in the source.  Accesses the source leaves unguarded are modelled with
`List.getD`, which agrees with Python indexing under the parallel-length
invariant of the session history (spec section 3). -/
def modalityMatchInput (h : SessHist) (n : Nat) (modality : String) (trial : Nat) :
    Bool × Bool :=
  let ci := trial - 1
  let ni := trial - n - 1
  if modality.startsWith "position" = true ∨ modality = "audio" ∨ modality = "audio2" ∨
      modality = "color" ∨ modality = "image" then
    if ci < (h.vals modality).length then
      (decide ((h.vals modality).getD ci 0 = (h.vals modality).getD ni 0),
        (h.bins (modality ++ "_input")).getD ci false)
    else (false, false)
  else if modality = "visvis" ∨ modality = "visaudio" ∨ modality = "audiovis" then
    ((checkCombinationMatch h trial n modality).getD false,
      (h.bins (modality ++ "_input")).getD ci false)
  else (false, false)

/-- The trial numbers `1..num_trials` that pass the `trial <= n_back: continue`
guard.  A nonpositive num_trials gives the empty range, as in Python. -/
def scoreableTrials (n : Nat) (numTrials : Int) : List Nat :=
  ((List.range numTrials.toNat).map (· + 1)).filter fun t => decide (n < t)

/-- calculate_modality_score: (hits, possible_hits, percentage). -/
def calculateModalityScore (h : SessHist) (n : Nat) (modality : String)
    (numTrials : Int) : Nat × Nat × ℚ :=
  let trials := scoreableTrials n numTrials
  let hits := trials.countP fun t =>
    decide ((modalityMatchInput h n modality t).1 = (modalityMatchInput h n modality t).2)
  (hits, trials.length,
    if 0 < trials.length then (hits : ℚ) / (trials.length : ℚ) * 100 else 0)

/-- calculate_arithmetic_score: trials whose arithmetic answer is missing are
skipped entirely (`continue`), the others are checked with
check_arithmetic_match. -/
def calculateArithmeticScore (h : SessHist) (n : Nat) (numTrials : Int) :
    Nat × Nat × ℚ :=
  let trials := (scoreableTrials n numTrials).filter fun t =>
    decide (t - 1 < h.arithmeticInput.length)
  let hits := trials.countP fun t =>
    (checkArithmeticMatch (h.vals "numbers") h.operation t n
      (h.arithmeticInput.getD (t - 1) 0)).getD false
  (hits, trials.length,
    if 0 < trials.length then (hits : ℚ) / (trials.length : ℚ) * 100 else 0)

/-- Python dict assignment `scores[k] = v` on an association list: update the
existing entry in place, or append a new key at the end. -/
def setScore (m : List (String × ℚ)) (k : String) (v : ℚ) : List (String × ℚ) :=
  if m.any fun p => p.1 = k then m.map fun p => if p.1 = k then (k, v) else p
  else m ++ [(k, v)]

/-- The 16 modality keys initialized to 0.0 by calculate_session_score. -/
def initialScores : List (String × ℚ) :=
  [("position1", 0), ("position2", 0), ("position3", 0), ("position4", 0),
   ("audio", 0), ("audio2", 0), ("color", 0), ("image", 0),
   ("visvis", 0), ("visaudio", 0), ("audiovis", 0), ("arithmetic", 0),
   ("vis1", 0), ("vis2", 0), ("vis3", 0), ("vis4", 0)]

/-- calculate_session_score: per-modality percentages plus the pooled
`overall` percentage. -/
def calculateSessionScore (h : SessHist) (n : Nat) (modalities : List String)
    (numTrials : Int) : List (String × ℚ) :=
  let step := fun (acc : List (String × ℚ) × Nat × Nat) (modality : String) =>
    let r := if modality = "arithmetic" then calculateArithmeticScore h n numTrials
             else calculateModalityScore h n modality numTrials
    (setScore acc.1 modality r.2.2, acc.2.1 + r.1, acc.2.2 + r.2.1)
  let res := modalities.foldl step (initialScores, 0, 0)
  setScore res.1 "overall"
    (if 0 < res.2.2 then (res.2.1 : ℚ) / (res.2.2 : ℚ) * 100 else 0)

/-! ## game_session.py: the session state machine

The GameSession / Mode / Stats state relevant to the claims (the tick clock,
trial and session counters, pause flags, the input maps and the recorded
session history).  Fields that only feed the renderer or audio layer (sound
set names, the precomputed Jaeggi and variable-n-back sequences) are not
represented; no represented operation reads them.  Event callbacks
(on_trial_start and friends) are external effects; the payload of the
session-end event is returned by `endSession`. -/
structure GameState where
  started : Bool
  paused : Bool
  selfpaced : Bool
  multi : Int
  tick : Int
  ticks_per_trial : Int
  trial_number : Int
  num_trials_total : Int
  session_number : Int
  sessions_today : Int
  show_missed : Bool
  trial_starttime : ℚ
  inputKeys : List String
  inputs : String → Bool
  input_rts : String → ℚ
  current_stim : List (String × ℚ)
  current_operation : String
  back : Nat
  modalities : List String
  session : SessHist

/-- The stimulus pipeline invoked by _generate_stimulus (generate_base_stimuli,
choose_arithmetic_operation, generate_arithmetic_operand, apply_nback_matching,
apply_static_defaults) consumes the random source and writes only
mode.current_stim and mode.current_operation; it is modelled as an arbitrary
oracle producing those two values. -/
def GenOracle : Type := GameState → List (String × ℚ) × String

/-- register_input: a no-op when the modality is not a key of mode.inputs;
otherwise sets the flag and unconditionally records
`timestamp - trial_starttime`. -/
def registerInput (s : GameState) (modality : String) (timestamp : ℚ) : GameState :=
  if modality ∈ s.inputKeys then
    { s with
      inputs := fun m => if m = modality then true else s.inputs m,
      input_rts := fun m => if m = modality then timestamp - s.trial_starttime
                            else s.input_rts m }
  else s

/-- _reset_input: every key of mode.inputs is set to False and its reaction
time to 0. -/
def resetInputs (s : GameState) : GameState :=
  { s with
    inputs := fun m => if m ∈ s.inputKeys then false else s.inputs m,
    input_rts := fun m => if m ∈ s.inputKeys then 0 else s.input_rts m }

/-- Append one value to the list stored at key `k`. -/
def appendAt (f : String → List ℚ) (k : String) (v : ℚ) : String → List ℚ :=
  fun m => if m = k then f m ++ [v] else f m

/-- Append one boolean to the list stored at key `k`. -/
def appendAtB (f : String → List Bool) (k : String) (v : Bool) : String → List Bool :=
  fun m => if m = k then f m ++ [v] else f m

/-- One iteration of the `for k, v in mode.current_stim.items()` loop of
Stats.save_input: `number` goes to `numbers`, everything else to its own key,
and `vis` additionally to `image`. -/
def saveStimPair (h : SessHist) (kv : String × ℚ) : SessHist :=
  let h1 := if kv.1 = "number" then { h with vals := appendAt h.vals "numbers" kv.2 }
            else { h with vals := appendAt h.vals kv.1 kv.2 }
  if kv.1 = "vis" then { h1 with vals := appendAt h1.vals "image" kv.2 } else h1

/-- Stats.save_input as called from the session (no arithmetic answer label in
the domain layer, so 0 is appended to arithmetic_input, as in the source
default branch). -/
def saveInput (s : GameState) : SessHist :=
  let h1 := s.current_stim.foldl saveStimPair s.session
  let h2 := s.inputKeys.foldl
    (fun h k => { h with bins := appendAtB h.bins (k ++ "_input") (s.inputs k) }) h1
  let h3 := s.inputKeys.foldl
    (fun h k => { h with rts := appendAt h.rts (k ++ "_rt") (s.input_rts k) }) h2
  let h4 := { h3 with operation := h3.operation ++ [s.current_operation] }
  { h4 with arithmeticInput := h4.arithmeticInput ++ [0] }

/-- GameSession.start: the negative lead-in tick (doubled extra lead-in when
the multi-stimulus mode is `image`), the session counter increment, trial
counter reset, flags, and a fresh session history
(Stats.initialize_session).  Audio set selection and the optional Jaeggi /
variable-n-back precomputation write only unrepresented fields. -/
def startSession (imageMultiMode : Bool) (s : GameState) : GameState :=
  { s with
    tick := -9 - 5 * (s.multi - 1) -
      (if imageMultiMode = true then 5 * (s.multi - 1) else 0),
    session_number := s.session_number + 1,
    trial_number := 0,
    started := true,
    paused := false,
    session := emptySessHist }

/-- GameSession.end: the returned list is the score map carried by the
session-end event (empty when cancelled). -/
def endSession (s : GameState) (cancelled : Bool) : GameState × List (String × ℚ) :=
  let s1 := if cancelled = true then { s with session_number := s.session_number - 1 }
            else { s with sessions_today := s.sessions_today + 1 }
  let s2 := resetInputs { s1 with started := false, paused := false }
  if cancelled = true then (s2, [])
  else (s2, calculateSessionScore s2.session s2.back s2.modalities (s2.trial_number - 1))

/-- _generate_stimulus: writes current_stim and current_operation from the
stimulus pipeline. -/
def generateStimulus (gen : GenOracle) (s : GameState) : GameState :=
  { s with current_stim := (gen s).1, current_operation := (gen s).2 }

/-- _start_new_trial: clear the missed-feedback flag, fold the previous
trial's data into the history (skipped on the first trial), advance the trial
counter and start time, end the session when the trial counter exceeds the
total, otherwise generate the new stimulus and reset the inputs. -/
def startNewTrial (gen : GenOracle) (now : ℚ) (s : GameState) : GameState :=
  let s1 := { s with show_missed := false }
  let s2 := if 0 < s1.trial_number then { s1 with session := saveInput s1 } else s1
  let s3 := { s2 with trial_number := s2.trial_number + 1, trial_starttime := now }
  if s3.num_trials_total < s3.trial_number then (endSession s3 false).1
  else resetInputs (generateStimulus gen s3)

/-- The tick-advance gate of update (lines 156-159): the tick is incremented
unless self-paced mode is active and the tick is inside the wait-for-input
window (`not selfpaced or tick > ticks_per_trial - 6 or tick < 5`). -/
def tickAfterGate (s : GameState) : Int :=
  if s.selfpaced = false ∨ s.ticks_per_trial - 6 < s.tick ∨ s.tick < 5 then s.tick + 1
  else s.tick

/-- The `if tick == 1` trial-start phase of update. -/
def trialPhase (gen : GenOracle) (now : ℚ) (s : GameState) : GameState :=
  if s.tick = 1 then startNewTrial gen now s else s

/-- The `if tick == ticks_per_trial - 2` feedback phase of update.  (The
stimulus-hide phase between the trial-start and feedback checks only fires a
callback and changes no session state.) -/
def feedbackPhase (s : GameState) : GameState :=
  if s.tick = s.ticks_per_trial - 2 then { s with tick := 0, show_missed := true }
  else s

/-- update after the started/paused guard and before the final rollover
check. -/
def updateBody (gen : GenOracle) (now : ℚ) (s : GameState) : GameState :=
  feedbackPhase (trialPhase gen now { s with tick := tickAfterGate s })

/-- The final `if tick == ticks_per_trial: tick = 0` rollover check. -/
def rolloverPhase (s : GameState) : GameState :=
  if s.tick = s.ticks_per_trial then { s with tick := 0 } else s

/-- GameSession.update(dt).  `now` is the wall-clock time read inside
_start_new_trial; dt itself is unused by the source body. -/
def update (gen : GenOracle) (now : ℚ) (s : GameState) : GameState :=
  if s.started = false ∨ s.paused = true then s
  else rolloverPhase (updateBody gen now s)

/-- GameSession.pause. -/
def pauseSession (s : GameState) : GameState := { s with paused := true }

/-- GameSession.resume. -/
def resumeSession (s : GameState) : GameState := { s with paused := false }

/-- Session states reachable from start() (with a valid multi count and at
least 3 ticks per trial) under the session-facing operations. -/
inductive Reachable : GameState → Prop where
  | start (img : Bool) (s0 : GameState) (h3 : 3 ≤ s0.ticks_per_trial)
      (hm : 1 ≤ s0.multi) : Reachable (startSession img s0)
  | step (gen : GenOracle) (now : ℚ) (s : GameState) :
      Reachable s → Reachable (update gen now s)
  | input (m : String) (t : ℚ) (s : GameState) :
      Reachable s → Reachable (registerInput s m t)
  | pauseStep (s : GameState) : Reachable s → Reachable (pauseSession s)
  | resumeStep (s : GameState) : Reachable s → Reachable (resumeSession s)
  | endStep (c : Bool) (s : GameState) : Reachable s → Reachable (endSession s c).1

/-- Tick invariant maintained throughout a session: at least 3 ticks per
trial and a tick at most ticks_per_trial - 3. -/
def tickInv (s : GameState) : Prop :=
  3 ≤ s.ticks_per_trial ∧ s.tick ≤ s.ticks_per_trial - 3

/-! ## Concrete states and streams used by witnesses and counterexamples -/

/-- Random stream driving the C1 witness run of computeJaeggiSequence. -/
def rW : Nat → Nat := fun i =>
  [0, 0, 0, 0, 0, 0, 0, 0, 1, 2, 3, 4, 1, 2, 3, 4, 4, 4, 4, 4, 4, 4].getD i 0

/-- A trivial stimulus oracle. -/
def genEx : GenOracle := fun _ => ([], "add")

/-- A concrete idle session state. -/
def baseState : GameState :=
  { started := false, paused := false, selfpaced := false, multi := 1,
    tick := 0, ticks_per_trial := 20, trial_number := 0, num_trials_total := 20,
    session_number := 7, sessions_today := 0, show_missed := false,
    trial_starttime := 0, inputKeys := ["position1", "audio"],
    inputs := fun _ => false, input_rts := fun _ => 0, current_stim := [],
    current_operation := "add", back := 2, modalities := ["position1", "audio"],
    session := emptySessHist }

/-- A running self-paced state sitting at tick 5 with 20 ticks per trial. -/
def sHold5 : GameState :=
  { baseState with started := true, selfpaced := true, tick := 5, trial_number := 3 }

/-- The same state at tick ticks_per_trial - 6 = 14. -/
def sHold14 : GameState := { sHold5 with tick := 14 }

/-! ## Helper lemmas for the sequence generator -/

theorem genVals_length (r : Nat → Nat) (i count : Nat) : (genVals r i count).length = count := by
  simp [genVals]

theorem genVals_mem_range (r : Nat → Nat) (i count : Nat) :
    ∀ v ∈ genVals r i count, 1 ≤ v ∧ v ≤ 8 := by
  intro v hv
  simp only [genVals, List.mem_map] at hv
  obtain ⟨k, -, rfl⟩ := hv
  unfold randInt18
  constructor
  · exact Nat.le_add_left 1 _
  · have h8 : r (i + k) % 8 < 8 := Nat.mod_lt _ (by norm_num)
    omega

theorem randInt18_range (r : Nat → Nat) (i : Nat) : 1 ≤ randInt18 r i ∧ randInt18 r i ≤ 8 := by
  unfold randInt18
  have h8 : r i % 8 < 8 := Nat.mod_lt _ (by norm_num)
  omega

theorem audioLoop_spec (r : Nat → Nat) (pre1 : List Nat) (n num : Nat) :
    ∀ fI i q, audioLoop r pre1 n num i fI = some q →
      (∃ j, q.1 = pre1 ++ genVals r j (num - n)) ∧ countMatches q.1 n num = 6 := by
  intro fI
  induction fI with
  | zero => intro i q h; simp [audioLoop] at h
  | succ fuel ih =>
    intro i q h
    rw [audioLoop] at h
    split at h
    · rename_i hc
      obtain rfl : (regenTail r i pre1 n num) = q := by
        simpa using h
      exact ⟨⟨i, rfl⟩, hc⟩
    · exact ih _ _ h

theorem jaeggiLoop_spec (r : Nat → Nat) (pre0 pre1 : List Nat) (n num fI : Nat) :
    ∀ fO i s0 s1, jaeggiLoop r pre0 pre1 n num fI i fO = some (s0, s1) →
      (∃ j, s0 = pre0 ++ genVals r j (num - n)) ∧ countMatches s0 n num = 6 ∧
      (∃ j, s1 = pre1 ++ genVals r j (num - n)) ∧ countMatches s1 n num = 6 ∧
      countBothMatches s0 s1 n num = 2 := by
  intro fO
  induction fO with
  | zero => intro i s0 s1 h; simp [jaeggiLoop] at h
  | succ fuel ih =>
    intro i s0 s1 h
    rw [jaeggiLoop] at h
    split at h
    · rename_i hpos
      split at h
      · exact absurd h (by simp)
      · rename_i q hq
        split at h
        · rename_i hboth
          injection h with h'
          injection h' with h1 h2
          subst h1
          subst h2
          obtain ⟨hj1, hc1⟩ := audioLoop_spec r pre1 n num fI _ q hq
          exact ⟨⟨i, rfl⟩, hpos, hj1, hc1, hboth⟩
        · exact ih _ _ _ h
    · exact ih _ _ _ h

/-! ## Claim C1 -/

/-- Claim C1: for n_back >= 1 and num_trials > n_back, whenever
compute_jaeggi_sequence returns, it returns two sequences of length
num_trials with entries in 1..8 such that each sequence has exactly 6
post-warm-up entries matching the entry n_back positions earlier and exactly
2 indices are simultaneously a match in both sequences. -/
theorem jaeggi_sequence_spec (r : Nat → Nat) (n num fO fI : Nat)
    (h1 : 1 ≤ n) (h2 : n < num) (s0 s1 : List Nat)
    (h : computeJaeggiSequence r n num fO fI = some (s0, s1)) :
    s0.length = num ∧ s1.length = num ∧
    (∀ v ∈ s0, 1 ≤ v ∧ v ≤ 8) ∧ (∀ v ∈ s1, 1 ≤ v ∧ v ≤ 8) ∧
    countMatches s0 n num = 6 ∧ countMatches s1 n num = 6 ∧
    countBothMatches s0 s1 n num = 2 := by
  unfold computeJaeggiSequence at h
  obtain ⟨⟨j0, he0⟩, hc0, ⟨j1, he1⟩, hc1, hb⟩ :=
    jaeggiLoop_spec r _ _ n num fI fO _ s0 s1 h
  have hlen0 : s0.length = num := by
    rw [he0]
    simp [genVals_length]
    omega
  have hlen1 : s1.length = num := by
    rw [he1]
    simp [genVals_length]
    omega
  refine ⟨hlen0, hlen1, ?_, ?_, hc0, hc1, hb⟩
  · intro v hv
    rw [he0] at hv
    rcases List.mem_append.1 hv with hv | hv
    · simp only [List.mem_map] at hv
      obtain ⟨x, -, rfl⟩ := hv
      exact randInt18_range r _
    · exact genVals_mem_range r _ _ v hv
  · intro v hv
    rw [he1] at hv
    rcases List.mem_append.1 hv with hv | hv
    · simp only [List.mem_map] at hv
      obtain ⟨x, -, rfl⟩ := hv
      exact randInt18_range r _
    · exact genVals_mem_range r _ _ v hv

/-- Witness for C1: a concrete random stream on which
computeJaeggiSequence 1 11 terminates in a single attempt. -/
theorem jaeggi_sequence_spec_witness :
    (1 ≤ 1 ∧ 1 < 11) ∧
    (([1, 1, 1, 1, 1, 1, 1, 2, 3, 4, 5] : List Nat).length = 11 ∧
     ([1, 2, 3, 4, 5, 5, 5, 5, 5, 5, 5] : List Nat).length = 11 ∧
     (∀ v ∈ ([1, 1, 1, 1, 1, 1, 1, 2, 3, 4, 5] : List Nat), 1 ≤ v ∧ v ≤ 8) ∧
     (∀ v ∈ ([1, 2, 3, 4, 5, 5, 5, 5, 5, 5, 5] : List Nat), 1 ≤ v ∧ v ≤ 8) ∧
     countMatches [1, 1, 1, 1, 1, 1, 1, 2, 3, 4, 5] 1 11 = 6 ∧
     countMatches [1, 2, 3, 4, 5, 5, 5, 5, 5, 5, 5] 1 11 = 6 ∧
     countBothMatches [1, 1, 1, 1, 1, 1, 1, 2, 3, 4, 5]
       [1, 2, 3, 4, 5, 5, 5, 5, 5, 5, 5] 1 11 = 2) :=
  ⟨⟨by decide, by decide⟩,
    jaeggi_sequence_spec rW 1 11 1 1 (by decide) (by decide) _ _ (by decide)⟩

/-! ## Claim C4 -/

theorem jaeggiLoop_short (r : Nat → Nat) (pre0 pre1 : List Nat) (n num fI : Nat)
    (hshort : num - n < 6) :
    ∀ fO i, jaeggiLoop r pre0 pre1 n num fI i fO = none := by
  intro fO
  induction fO with
  | zero => intro i; rfl
  | succ fuel ih =>
    intro i
    rw [jaeggiLoop]
    have hle : countMatches (regenTail r i pre0 n num).1 n num < 6 := by
      calc countMatches (regenTail r i pre0 n num).1 n num
          ≤ (postWarm n num).length := List.countP_le_length _
        _ = num - n := by simp [postWarm]
        _ < 6 := hshort
    rw [if_neg (by omega)]
    exact ih _

/-- Claim C4 (code bug): the source imposes no retry cap at all; its
`while True` loops never return on inputs whose post-warm-up range is shorter
than 6 trials.  For n_back = 1, num_trials = 2 the fuel-indexed model returns
none for every random stream and every fuel bound, so the unbounded source
loop runs forever and no failure condition is ever raised. -/
theorem jaeggi_no_retry_cap (r : Nat → Nat) (fO fI : Nat) :
    computeJaeggiSequence r 1 2 fO fI = none := by
  unfold computeJaeggiSequence
  exact jaeggiLoop_short r _ _ 1 2 fI (by norm_num) fO _

/-! ## Claim C5 -/

/-- Counterexample to C5 as stated: with n_back = 2, trial 5, history
[4, 1, 1, 7, 9] and the (identity) shuffle [1, 2] of the candidate list, the
interference branch forces the value 4 found at offset 2 * n_back = 4, which
differs from the historical values at the claimed offsets n-1, n+1 and n
(7, 1 and 1) and from the unmodified current value 5. -/
theorem interference_offsets_cex :
    interferenceCandidates 2 = [1, 2] ∧
    ([1, 2] : List Int).Perm (interferenceCandidates 2) ∧
    applyInterference 5 [4, 1, 1, 7, 9] 5 2 [1, 2] = 4 ∧
    (4 : Int) ≠ ([4, 1, 1, 7, 9] : List Int).getD ((5 : Nat) - (2 - 1) - 1) 0 ∧
    (4 : Int) ≠ ([4, 1, 1, 7, 9] : List Int).getD ((5 : Nat) - (2 + 1) - 1) 0 ∧
    (4 : Int) ≠ ([4, 1, 1, 7, 9] : List Int).getD ((5 : Nat) - 2 - 1) 0 ∧
    (4 : Int) ≠ 5 := by
  decide

/-- Claim C5 as amended: the interference offsets are n-1, n+1 or 2*n_back
(the source sets back = n_back + i for i drawn from [-1, 1, n_back], dropping
-1 when n_back < 3); the first shuffled candidate with nonnegative index
whose historical value differs from the true n-back value is taken, and when
no candidate qualifies the channel value is unmodified. -/
theorem interference_offsets_spec (cur : Int) (hist : List Int) (trial n : Nat)
    (shuffled : List Int) (hn : 1 < n)
    (hs : shuffled.Perm (interferenceCandidates n)) :
    (pickInterference hist trial n shuffled = none →
      applyInterference cur hist trial n shuffled = cur) ∧
    (∀ b, pickInterference hist trial n shuffled = some b →
      (b = (n : Int) - 1 ∨ b = (n : Int) + 1 ∨ b = 2 * (n : Int)) ∧
      applyInterference cur hist trial n shuffled =
        hist.getD ((trial : Int) - b - 1).toNat 0 ∧
      0 ≤ (trial : Int) - b - 1 ∧
      hist.getD ((trial : Int) - b - 1).toNat 0 ≠ hist.getD (trueNbackIdx trial n) 0) := by
  constructor
  · intro hnone
    simp [applyInterference, hnone]
  · intro b hsome
    simp only [pickInterference, Option.map_eq_some'] at hsome
    obtain ⟨i, hfind, hb⟩ := hsome
    have hmem : i ∈ shuffled := List.mem_of_find?_eq_some hfind
    have hmemc : i ∈ interferenceCandidates n := hs.mem_iff.1 hmem
    have hok : candidateOk hist trial n i = true := List.find?_some hfind
    simp only [candidateOk, Bool.and_eq_true, decide_eq_true_eq] at hok
    have hidx : candidateIdx trial n i = (trial : Int) - b - 1 := by
      simp only [candidateIdx]
      omega
    have hself : applyInterference cur hist trial n shuffled =
        hist.getD ((trial : Int) - b - 1).toNat 0 := by
      have hpick : pickInterference hist trial n shuffled = some b := by
        simp only [pickInterference, Option.map_eq_some']
        exact ⟨i, hfind, hb⟩
      simp [applyInterference, hpick]
    refine ⟨?_, hself, ?_, ?_⟩
    · unfold interferenceCandidates at hmemc
      split at hmemc
      · rcases List.mem_cons.1 hmemc with rfl | h2
        · right; left; omega
        · rcases List.mem_singleton.1 h2 with rfl
          right; right; omega
      · rcases List.mem_cons.1 hmemc with rfl | h2
        · left; omega
        · rcases List.mem_cons.1 h2 with rfl | h3
          · right; left; omega
          · rcases List.mem_singleton.1 h3 with rfl
            right; right; omega
    · rw [← hidx]
      exact hok.1
    · rw [← hidx]
      exact hok.2

/-- Witness for C5: the amended statement instantiated at n_back = 3 with the
identity shuffle of the candidate list. -/
theorem interference_offsets_spec_witness :
    ((1 : Nat) < 3 ∧ ([-1, 1, 3] : List Int).Perm (interferenceCandidates 3)) ∧
    (pickInterference [] 0 3 [-1, 1, 3] = none →
      applyInterference 0 [] 0 3 [-1, 1, 3] = 0) :=
  ⟨⟨by decide, by decide⟩,
    (interference_offsets_spec 0 [] 0 3 [-1, 1, 3] (by decide) (by decide)).1⟩

/-! ## Claim C3 -/

/-- Claim C3: the divide check with n-back operand 10 and current operand 4
(expected 2.5) accepts 2.5 and 2.51 (the doubles written 2.51 and 0.01 make
|2.51 - 2.5| < 0.01 true) and rejects 2.6; add, subtract and multiply require
exact equality with the computed result. -/
theorem arithmetic_match_spec (numbers : List ℚ) (operation : List String)
    (trial n : Nat) (answer : ℚ) (op : String)
    (htn : n < trial) (hni : trial - n - 1 < numbers.length)
    (hci : trial - 1 < numbers.length)
    (hop : operation.get? (trial - 1) = some op) :
    (checkArithmeticMatch [10, 4] ["divide", "divide"] 2 1 (5 / 2) = some true ∧
     checkArithmeticMatch [10, 4] ["divide", "divide"] 2 1 q251 = some true ∧
     checkArithmeticMatch [10, 4] ["divide", "divide"] 2 1 q26 = some false) ∧
    (op = "add" →
      (checkArithmeticMatch numbers operation trial n answer = some true ↔
        answer = numbers.getD (trial - n - 1) 0 + numbers.getD (trial - 1) 0)) ∧
    (op = "subtract" →
      (checkArithmeticMatch numbers operation trial n answer = some true ↔
        answer = numbers.getD (trial - n - 1) 0 - numbers.getD (trial - 1) 0)) ∧
    (op = "multiply" →
      (checkArithmeticMatch numbers operation trial n answer = some true ↔
        answer = numbers.getD (trial - n - 1) 0 * numbers.getD (trial - 1) 0)) := by
  refine ⟨⟨?_, ?_, ?_⟩, ?_, ?_, ?_⟩
  · simp only [checkArithmeticMatch]
    norm_num [qTol]
    decide
  · simp only [checkArithmeticMatch]
    norm_num [qTol, q251]
    rw [if_neg (by decide), if_neg (by decide), if_neg (by decide)]
    norm_num [abs_of_nonneg]
  · simp only [checkArithmeticMatch]
    norm_num [qTol, q26]
    intro h1 h2 h3
    rw [abs_of_nonneg (by norm_num)]
    norm_num
  all_goals
    intro hopv
    subst hopv
    simp only [checkArithmeticMatch]
    rw [if_neg (by omega), if_neg (by omega), if_neg (by omega), hop]
    simp

/-- Witness for C3 at numbers [1, 2], operations [add, add], trial 2,
n_back 1, answer 3. -/
theorem arithmetic_match_spec_witness :
    ((1 : Nat) < 2 ∧ (2 : Nat) - 1 - 1 < ([1, 2] : List ℚ).length ∧
      (2 : Nat) - 1 < ([1, 2] : List ℚ).length ∧
      (["add", "add"] : List String).get? (2 - 1) = some "add") ∧
    ((checkArithmeticMatch [10, 4] ["divide", "divide"] 2 1 (5 / 2) = some true ∧
      checkArithmeticMatch [10, 4] ["divide", "divide"] 2 1 q251 = some true ∧
      checkArithmeticMatch [10, 4] ["divide", "divide"] 2 1 q26 = some false) ∧
     ("add" = "add" →
       (checkArithmeticMatch [1, 2] ["add", "add"] 2 1 3 = some true ↔
         (3 : ℚ) = ([1, 2] : List ℚ).getD (2 - 1 - 1) 0 +
           ([1, 2] : List ℚ).getD (2 - 1) 0)) ∧
     ("add" = "subtract" →
       (checkArithmeticMatch [1, 2] ["add", "add"] 2 1 3 = some true ↔
         (3 : ℚ) = ([1, 2] : List ℚ).getD (2 - 1 - 1) 0 -
           ([1, 2] : List ℚ).getD (2 - 1) 0)) ∧
     ("add" = "multiply" →
       (checkArithmeticMatch [1, 2] ["add", "add"] 2 1 3 = some true ↔
         (3 : ℚ) = ([1, 2] : List ℚ).getD (2 - 1 - 1) 0 *
           ([1, 2] : List ℚ).getD (2 - 1) 0))) :=
  ⟨⟨by decide, by decide, by decide, rfl⟩,
    arithmetic_match_spec [1, 2] ["add", "add"] 2 1 3 "add"
      (by decide) (by decide) (by decide) rfl⟩

/-! ## Claim C8 -/

/-- Claim C8 (code bug): check_combination_match indexes the vis history
without the upper-bound guard its sibling checkers carry, so on a history
whose vis list is shorter than the current index it faults (IndexError,
modelled as none) instead of returning a guarded False; the sibling
check_position_match returns False on the same out-of-range input, and
warm-up trials contribute 0 scoreable trials. -/
theorem combination_match_fault :
    checkCombinationMatch emptySessHist 3 2 "visvis" = none ∧
    checkPositionMatch emptySessHist 3 2 "position1" = false ∧
    (calculateModalityScore emptySessHist 2 "position1" 2).2.1 = 0 := by
  exact ⟨rfl, rfl, rfl⟩

/-! ## Claims about register_input (C2 and C10) -/

theorem register_input_fields (s : GameState) (m : String) (t : ℚ) :
    (registerInput s m t).inputKeys = s.inputKeys ∧
    (registerInput s m t).trial_starttime = s.trial_starttime := by
  unfold registerInput
  split <;> exact ⟨rfl, rfl⟩

theorem register_input_known (s : GameState) (m : String) (t : ℚ)
    (hm : m ∈ s.inputKeys) :
    (registerInput s m t).inputs m = true ∧
    (registerInput s m t).input_rts m = t - s.trial_starttime := by
  unfold registerInput
  rw [if_pos hm]
  exact ⟨by simp, by simp⟩

/-- Counterexample to C2 as stated: registering audio at time 1 and again at
time 2 within the same trial (trial start time 0) leaves the recorded
reaction time at 2, the SECOND timestamp, not the first: the source
overwrites the reaction time unconditionally. -/
theorem register_input_cex :
    (registerInput (registerInput sHold5 "audio" 1) "audio" 2).inputs "audio" = true ∧
    (registerInput (registerInput sHold5 "audio" 1) "audio" 2).input_rts "audio" = 2 ∧
    (registerInput (registerInput sHold5 "audio" 1) "audio" 2).input_rts "audio" ≠ 1 := by
  have hk : "audio" ∈ (registerInput sHold5 "audio" 1).inputKeys := by
    rw [(register_input_fields sHold5 "audio" 1).1]
    decide
  have h2 := register_input_known (registerInput sHold5 "audio" 1) "audio" 2 hk
  have hts := (register_input_fields sHold5 "audio" 1).2
  refine ⟨h2.1, ?_, ?_⟩
  · rw [h2.2, hts]
    norm_num [sHold5, baseState]
  · rw [h2.2, hts]
    norm_num [sHold5, baseState]

/-- Claim C2 as amended: re-registering a channel within a trial keeps the
flag True but records the LAST registration's reaction time,
t2 - trial start. -/
theorem register_input_last_wins (s : GameState) (m : String) (t1 t2 : ℚ)
    (hm : m ∈ s.inputKeys) :
    (registerInput (registerInput s m t1) m t2).inputs m = true ∧
    (registerInput (registerInput s m t1) m t2).input_rts m =
      t2 - s.trial_starttime := by
  have hf := register_input_fields s m t1
  have h := register_input_known (registerInput s m t1) m t2 (by rw [hf.1]; exact hm)
  exact ⟨h.1, by rw [h.2, hf.2]⟩

/-- Witness for C2 (amended) at the concrete running state. -/
theorem register_input_last_wins_witness :
    ("audio" ∈ sHold5.inputKeys) ∧
    ((registerInput (registerInput sHold5 "audio" 1) "audio" 2).inputs "audio" = true ∧
     (registerInput (registerInput sHold5 "audio" 1) "audio" 2).input_rts "audio" =
       2 - sHold5.trial_starttime) :=
  ⟨by decide, register_input_last_wins sHold5 "audio" 1 2 (by decide)⟩

/-- Claim C10: register_input with a modality that is not a key of
mode.inputs is a silent no-op: the whole session state is returned
unchanged and no error is raised. -/
theorem register_input_unknown (s : GameState) (m : String) (t : ℚ)
    (hm : m ∉ s.inputKeys) : registerInput s m t = s := by
  unfold registerInput
  rw [if_neg hm]

/-- Witness for C10: the color channel is not active in the concrete state. -/
theorem register_input_unknown_witness :
    ("color" ∉ baseState.inputKeys) ∧ registerInput baseState "color" 5 = baseState :=
  ⟨by decide, register_input_unknown baseState "color" 5 (by decide)⟩

/-! ## Frame lemmas for the tick machine (C6, C7, C9) -/

theorem endSession_frame (s : GameState) (c : Bool) :
    (endSession s c).1.tick = s.tick ∧
    (endSession s c).1.ticks_per_trial = s.ticks_per_trial ∧
    (endSession s c).1.session_number =
      (if c = true then s.session_number - 1 else s.session_number) := by
  cases c <;> exact ⟨rfl, rfl, rfl⟩

theorem startNewTrial_frame (gen : GenOracle) (now : ℚ) (s : GameState) :
    (startNewTrial gen now s).tick = s.tick ∧
    (startNewTrial gen now s).ticks_per_trial = s.ticks_per_trial ∧
    (startNewTrial gen now s).session_number = s.session_number := by
  simp only [startNewTrial]
  split_ifs
  · exact ⟨(endSession_frame _ false).1, (endSession_frame _ false).2.1,
      by rw [(endSession_frame _ false).2.2]; simp⟩
  · exact ⟨rfl, rfl, rfl⟩
  · exact ⟨(endSession_frame _ false).1, (endSession_frame _ false).2.1,
      by rw [(endSession_frame _ false).2.2]; simp⟩
  · exact ⟨rfl, rfl, rfl⟩

theorem trialPhase_frame (gen : GenOracle) (now : ℚ) (s : GameState) :
    (trialPhase gen now s).tick = s.tick ∧
    (trialPhase gen now s).ticks_per_trial = s.ticks_per_trial ∧
    (trialPhase gen now s).session_number = s.session_number := by
  unfold trialPhase
  split
  · exact startNewTrial_frame gen now s
  · exact ⟨rfl, rfl, rfl⟩

theorem feedbackPhase_frame (s : GameState) :
    (feedbackPhase s).tick = (if s.tick = s.ticks_per_trial - 2 then 0 else s.tick) ∧
    (feedbackPhase s).ticks_per_trial = s.ticks_per_trial ∧
    (feedbackPhase s).session_number = s.session_number := by
  unfold feedbackPhase
  split <;> exact ⟨rfl, rfl, rfl⟩

theorem tickAfterGate_bounds (s : GameState) :
    tickAfterGate s = s.tick + 1 ∨ tickAfterGate s = s.tick := by
  unfold tickAfterGate
  split
  · exact Or.inl rfl
  · exact Or.inr rfl

theorem updateBody_tick_eq (gen : GenOracle) (now : ℚ) (s : GameState) :
    (updateBody gen now s).tick =
      (if tickAfterGate s = s.ticks_per_trial - 2 then 0 else tickAfterGate s) ∧
    (updateBody gen now s).ticks_per_trial = s.ticks_per_trial ∧
    (updateBody gen now s).session_number = s.session_number := by
  have h1 := trialPhase_frame gen now ({ s with tick := tickAfterGate s })
  have h2 := feedbackPhase_frame (trialPhase gen now { s with tick := tickAfterGate s })
  unfold updateBody
  refine ⟨?_, ?_, ?_⟩
  · rw [h2.1, h1.1, h1.2.1]
  · rw [h2.2.1, h1.2.1]
  · rw [h2.2.2, h1.2.2]

theorem updateBody_tickInv (gen : GenOracle) (now : ℚ) (s : GameState)
    (h : tickInv s) :
    tickInv (updateBody gen now s) ∧
    (updateBody gen now s).tick ≠ (updateBody gen now s).ticks_per_trial := by
  obtain ⟨h3, hle⟩ := h
  obtain ⟨ht, htpt, -⟩ := updateBody_tick_eq gen now s
  have hg := tickAfterGate_bounds s
  refine ⟨⟨by rw [htpt]; exact h3, ?_⟩, ?_⟩
  · rw [ht, htpt]
    split
    · omega
    · rcases hg with hg | hg <;> omega
  · rw [ht, htpt]
    split
    · omega
    · rcases hg with hg | hg <;> omega

theorem update_tickInv (gen : GenOracle) (now : ℚ) (s : GameState)
    (h : tickInv s) : tickInv (update gen now s) := by
  unfold update
  split
  · exact h
  · obtain ⟨⟨h3, hle⟩, hne⟩ := updateBody_tickInv gen now s h
    unfold rolloverPhase
    split
    · refine ⟨h3, ?_⟩
      show (0 : Int) ≤ (updateBody gen now s).ticks_per_trial - 3
      omega
    · exact ⟨h3, hle⟩

theorem register_tickInv (s : GameState) (m : String) (t : ℚ)
    (h : tickInv s) : tickInv (registerInput s m t) := by
  unfold registerInput
  split
  · exact h
  · exact h

theorem end_tickInv (s : GameState) (c : Bool) (h : tickInv s) :
    tickInv (endSession s c).1 := by
  cases c <;> exact h

theorem reachable_tickInv (s : GameState) (h : Reachable s) : tickInv s := by
  induction h with
  | start img s0 h3 hm =>
    refine ⟨h3, ?_⟩
    show -9 - 5 * (s0.multi - 1) -
      (if img = true then 5 * (s0.multi - 1) else 0) ≤ s0.ticks_per_trial - 3
    cases img <;> simp <;> omega
  | step gen now s hr ih => exact update_tickInv gen now s ih
  | input m t s hr ih => exact register_tickInv s m t ih
  | pauseStep s hr ih => exact ih
  | resumeStep s hr ih => exact ih
  | endStep c s hr ih => exact end_tickInv s c ih

/-! ## Claim C9 -/

/-- Claim C9: on every reachable session state (start() with at least 3 ticks
per trial), the tick observed by the final rollover check of update never
equals ticks_per_trial, so the rollover branch is dead: update coincides with
the version that omits it.  The tick is reset to 0 already when it reaches
ticks_per_trial - 2. -/
theorem rollover_branch_unreachable (gen : GenOracle) (now : ℚ) (s : GameState)
    (hr : Reachable s) :
    (updateBody gen now s).tick ≠ (updateBody gen now s).ticks_per_trial ∧
    update gen now s =
      (if s.started = false ∨ s.paused = true then s else updateBody gen now s) := by
  have h := reachable_tickInv s hr
  obtain ⟨-, hne⟩ := updateBody_tickInv gen now s h
  refine ⟨hne, ?_⟩
  unfold update
  split
  · rfl
  · unfold rolloverPhase
    rw [if_neg hne]

/-- Witness for C9: the freshly started concrete session. -/
theorem rollover_branch_unreachable_witness :
    (updateBody genEx 0 (startSession false baseState)).tick ≠
      (updateBody genEx 0 (startSession false baseState)).ticks_per_trial ∧
    update genEx 0 (startSession false baseState) =
      (if (startSession false baseState).started = false ∨
          (startSession false baseState).paused = true
       then startSession false baseState
       else updateBody genEx 0 (startSession false baseState)) :=
  rollover_branch_unreachable genEx 0 (startSession false baseState)
    (Reachable.start false baseState (by decide) (by decide))

/-! ## Claim C6 -/

/-- Counterexample to C6 as stated: the self-paced hold window is the CLOSED
interval [5, ticks_per_trial - 6]; at tick 5 and at tick
ticks_per_trial - 6 = 14 a running, unpaused, self-paced update leaves the
tick unchanged instead of incrementing it. -/
theorem selfpaced_gate_cex :
    sHold5.started = true ∧ sHold5.paused = false ∧ sHold5.selfpaced = true ∧
    sHold5.tick = 5 ∧ sHold5.ticks_per_trial = 20 ∧
    (update genEx 0 sHold5).tick = 5 ∧
    sHold14.tick = 20 - 6 ∧ (update genEx 0 sHold14).tick = 20 - 6 :=
  ⟨rfl, rfl, rfl, rfl, rfl, by decide, by decide, by decide⟩

/-- Claim C6 as amended: while running and unpaused, update holds the tick
exactly when self-paced mode is active and 5 <= tick <= ticks_per_trial - 6
(the closed interval, so the tick also holds at both endpoints); outside that
window the tick-advance gate increments the tick by one. -/
theorem selfpaced_gate_spec (gen : GenOracle) (now : ℚ) (s : GameState)
    (hs : s.started = true) (hp : s.paused = false) :
    (s.selfpaced = true → 5 ≤ s.tick → s.tick ≤ s.ticks_per_trial - 6 →
      (update gen now s).tick = s.tick) ∧
    (s.selfpaced = false ∨ s.tick < 5 ∨ s.ticks_per_trial - 6 < s.tick →
      tickAfterGate s = s.tick + 1) := by
  constructor
  · intro hsp h5 h6
    have hg : tickAfterGate s = s.tick := by
      unfold tickAfterGate
      rw [if_neg]
      push_neg
      refine ⟨by simp [hsp], by omega, by omega⟩
    obtain ⟨ht, htpt, -⟩ := updateBody_tick_eq gen now s
    have hbt : (updateBody gen now s).tick = s.tick := by
      rw [ht, hg, if_neg (by omega)]
    unfold update
    rw [if_neg (by simp [hs, hp])]
    unfold rolloverPhase
    rw [if_neg (by rw [hbt, htpt]; omega)]
    exact hbt
  · intro hd
    unfold tickAfterGate
    rw [if_pos]
    tauto

/-- Witness for C6 (amended) at the concrete self-paced running state. -/
theorem selfpaced_gate_spec_witness :
    (sHold5.started = true ∧ sHold5.paused = false) ∧
    ((sHold5.selfpaced = true → 5 ≤ sHold5.tick →
        sHold5.tick ≤ sHold5.ticks_per_trial - 6 →
        (update genEx 0 sHold5).tick = sHold5.tick) ∧
     (sHold5.selfpaced = false ∨ sHold5.tick < 5 ∨
        sHold5.ticks_per_trial - 6 < sHold5.tick →
        tickAfterGate sHold5 = sHold5.tick + 1)) :=
  ⟨⟨rfl, rfl⟩, selfpaced_gate_spec genEx 0 sHold5 rfl rfl⟩

/-! ## Claim C7 -/

theorem update_session_number (gen : GenOracle) (now : ℚ) (s : GameState) :
    (update gen now s).session_number = s.session_number := by
  unfold update
  split
  · rfl
  · obtain ⟨-, -, hsn⟩ := updateBody_tick_eq gen now s
    unfold rolloverPhase
    split
    · show (updateBody gen now s).session_number = s.session_number
      exact hsn
    · exact hsn

/-- Claim C7: start increments the session counter; update, register_input,
pause and resume never touch it; end(cancelled=true) decrements it (back to
its pre-start value) and emits an empty score map without computing scores;
end(cancelled=false) emits the score map computed by the score engine over
trial_number - 1 completed trials. -/
theorem end_session_spec :
    (∀ (img : Bool) (s : GameState),
      (startSession img s).session_number = s.session_number + 1) ∧
    (∀ (gen : GenOracle) (now : ℚ) (s : GameState),
      (update gen now s).session_number = s.session_number) ∧
    (∀ (s : GameState) (m : String) (t : ℚ),
      (registerInput s m t).session_number = s.session_number) ∧
    (∀ s : GameState, (pauseSession s).session_number = s.session_number ∧
      (resumeSession s).session_number = s.session_number) ∧
    (∀ s : GameState, (endSession s true).2 = [] ∧
      (endSession s true).1.session_number = s.session_number - 1) ∧
    (∀ s : GameState, (endSession s false).2 =
      calculateSessionScore s.session s.back s.modalities (s.trial_number - 1)) := by
  refine ⟨fun img s => rfl, update_session_number, ?_, fun s => ⟨rfl, rfl⟩,
    fun s => ⟨rfl, rfl⟩, fun s => rfl⟩
  intro s m t
  unfold registerInput
  split <;> rfl
